import Mathlib

/-!
Verification development for the werft job-execution subsystem.

The definitions below are a shallow embedding of the Go sources:
  pkg/executor/executor.go   (Executor: NewExecutor, Start, Stop, doHousekeeping, monitorJobs)
  pkg/werft/service.go       (Service: RunJob, Start/OnUpdate, listenToLogs, cleanupJobWorkspace)
  pkg/werft/auth.go          (UnaryAuthInterceptor, StreamAuthInterceptor, validateTokenFromRequest)
  pkg/store/postgres/tokens.go (TokenStore.Get)

External collaborators (the Kubernetes orchestrator, the SQL database, the
log store, the content provider, JSON/YAML codecs of external libraries)
are modelled as explicit inputs: their outcomes are parameters of the
embedded functions.  Machine integers (time.Duration, int64 nanoseconds)
are modelled as Int; they never approach 2^63 in any statement below.
-/

/-! ### Generic string and association-list helpers (Go strings package) -/

/-- Association-map update, modelling Go `m[k] = v` on a map rendered as a list. -/
def setAssoc {β : Type} (m : List (String × β)) (k : String) (v : β) : List (String × β) :=
  match m with
  | [] => [(k, v)]
  | (k0, v0) :: rest => if k0 = k then (k, v) :: rest else (k0, v0) :: setAssoc rest k v

/-- Go `strings.ToLower` (ASCII case folding suffices for every use in the source). -/
def lowerStr (s : String) : String := String.mk (s.data.map Char.toLower)

/-- Go `strings.Contains hay sub`: `sub` occurs as a contiguous substring of `hay`. -/
def strContains (hay sub : String) : Bool :=
  (List.range (hay.data.length + 1)).any (fun i => sub.data.isPrefixOf (hay.data.drop i))

/-- Go `strings.TrimPrefix s pre`. -/
def stripPre (s pre : String) : String :=
  if pre.data.isPrefixOf s.data then String.mk (s.data.drop pre.data.length) else s

/-- Go `strings.Join xs " "`. -/
def joinSpace : List String → String
  | [] => ""
  | [s] => s
  | s :: rest => s ++ " " ++ joinSpace rest

/-- Go `unicode.IsSpace` restricted to the ASCII space class, which is what
appears in log payloads: space, tab, newline, vertical tab, form feed, carriage return. -/
def isSpaceCh (c : Char) : Bool :=
  c == ' ' || c == '\t' || c == '\n' || c == Char.ofNat 11 || c == Char.ofNat 12 || c == '\r'

/-- Worker for `goFields`: splits a character list at runs of whitespace,
accumulating the current field in reverse in `acc`. -/
def fieldsAux : List Char → List Char → List (List Char)
  | [], acc => if acc = [] then [] else [acc.reverse]
  | c :: cs, acc =>
    if isSpaceCh c then
      if acc = [] then fieldsAux cs [] else acc.reverse :: fieldsAux cs []
    else fieldsAux cs (c :: acc)

/-- Go `strings.Fields`: the whitespace-separated fields of a string. -/
def goFields (s : String) : List String :=
  (fieldsAux s.data []).map (fun l => String.mk l)

/-- Go `strings.TrimSpace` on a character list. -/
def trimSpaceL (l : List Char) : List Char :=
  ((l.dropWhile (fun c => isSpaceCh c)).reverse.dropWhile (fun c => isSpaceCh c)).reverse

/-- Go `strings.TrimSpace`. -/
def trimSpace (s : String) : String := String.mk (trimSpaceL s.data)

/-! ### Timestamps (github.com/golang/protobuf/ptypes) -/

/-- A protobuf `Timestamp` (seconds since epoch plus nanoseconds). -/
structure Timestamp where
  seconds : Int
  nanos : Int
deriving DecidableEq

/-- Seconds of `0001-01-01T00:00:00Z`, the lower bound `ptypes` accepts. -/
def minValidSeconds : Int := -62135596800

/-- Seconds of `10000-01-01T00:00:00Z`, the exclusive upper bound `ptypes` accepts. -/
def maxValidSeconds : Int := 253402300800

/-- The range check performed by `ptypes.validateTimestamp`. -/
def tsValid (t : Timestamp) : Bool :=
  decide (minValidSeconds ≤ t.seconds) && decide (t.seconds < maxValidSeconds) &&
  decide (0 ≤ t.nanos) && decide (t.nanos < 1000000000)

/-- Go `ptypes.Timestamp`: converts an optional protobuf timestamp to a time
instant (here: nanoseconds since epoch), failing on nil or out-of-range values. -/
def tsParse : Option Timestamp → Except String Int
  | none => .error "timestamp: nil Timestamp"
  | some t =>
    if tsValid t then .ok (t.seconds * 1000000000 + t.nanos)
    else .error "timestamp out of range"

/-! ### The v1 API data model (pkg/api/v1) -/

/-- `v1.JobPhase`, in proto enum order. -/
inductive JobPhase
  | unknown
  | preparing
  | starting
  | running
  | done
  | cleanup
deriving DecidableEq

/-- The proto `String()` name of a phase, as used by `doHousekeeping`. -/
def phaseStr : JobPhase → String
  | .unknown => "PHASE_UNKNOWN"
  | .preparing => "PHASE_PREPARING"
  | .starting => "PHASE_STARTING"
  | .running => "PHASE_RUNNING"
  | .done => "PHASE_DONE"
  | .cleanup => "PHASE_CLEANUP"

/-- `strings.TrimPrefix(strings.ToLower(status.Phase.String()), "phase_")`
from `Executor.doHousekeeping`. -/
def phaseTimeoutName (p : JobPhase) : String := stripPre (lowerStr (phaseStr p)) "phase_"

/-- `v1.JobTrigger`. -/
inductive JobTrigger
  | unknown
  | manual
  | push
  | deleted
deriving DecidableEq

/-- `v1.Repository`. -/
structure Repository where
  host : String
  owner : String
  repo : String
  ref : String
  revision : String
deriving DecidableEq

/-- `v1.Annotation`: one (key, value) metadata annotation of a job. -/
structure Annot where
  key : String
  value : String
deriving DecidableEq

/-- `v1.JobMetadata`.  Pointer fields of the proto are `Option`s. -/
structure JobMetadata where
  owner : String
  repository : Option Repository
  trigger : JobTrigger
  created : Option Timestamp
  finished : Option Timestamp
  annotations : List Annot
deriving DecidableEq

/-- `v1.JobResult`. -/
structure JobResult where
  type : String
  payload : String
  description : String
  channels : List String
deriving DecidableEq

/-- `v1.JobConditions`. -/
structure JobConditions where
  success : Bool
  failureCount : Int
  canReplay : Bool
deriving DecidableEq

/-- `v1.JobStatus`.  The `Metadata` pointer is kept non-optional: every status
the embedded code constructs or consumes carries metadata (a nil pointer
there would be a nil dereference in the source). -/
structure JobStatus where
  name : String
  metadata : JobMetadata
  phase : JobPhase
  conditions : Option JobConditions
  details : String
  results : List JobResult
deriving DecidableEq

/-! ### Executor configuration and constructor (executor.go) -/

/-- Label applied to all werft job pods (`executor.LabelWerftMarker`). -/
def LabelWerftMarker : String := "werft.sh/job"

/-- Per-job name label (`executor.LabelJobName`, declared next to the log listener). -/
def LabelJobName : String := "werft.sh/jobName"

/-- Namespace for user annotations (`executor.UserDataAnnotationPrefix`). -/
def userDataAnnPre : String := "userdata.werft.sh"

/-- Annotation holding the max times a job may fail (`executor.AnnotationFailureLimit`). -/
def AnnotationFailureLimit : String := "werft.sh/failureLimit"

/-- Annotation that explicitly fails a job (`executor.AnnotationFailed`). -/
def AnnotationFailed : String := "werft.sh/failed"

/-- Annotation key marking cleanup jobs (`annotationCleanupJob` in the service). -/
def annotationCleanupJob : String := "cleanupJob"

/-- `executor.Config`.  `JobPrepTimeout`/`JobTotalTimeout` are pointers to a
Duration; `none` models a nil pointer, durations are nanoseconds. -/
structure ExecutorConfig where
  ns : String
  eventTraceLog : String
  jobPrepTimeout : Option Int
  jobTotalTimeout : Option Int
deriving DecidableEq

/-- The part of the `Executor` struct state that `NewExecutor` initialises and
that the embedded operations read (the Kubernetes client and the callback
fields are external collaborators). -/
structure ExecutorModel where
  config : ExecutorConfig
deriving DecidableEq

/-- `executor.NewExecutor` (executor.go:86-110), after the Kubernetes client
has been created successfully: validates the timeout configuration. -/
def newExecutor (config : ExecutorConfig) : Except String ExecutorModel :=
  match config.jobPrepTimeout with
  | none => .error "job preperation timeout is required"
  | some p =>
    match config.jobTotalTimeout with
    | none => .error "total job timeout is required"
    | some t =>
      if t < p then .error "total job timeout must be greater than the preparation timeout"
      else .ok { config := config }

/-! ### Kubernetes objects (the subset of corev1 the source touches) -/

/-- `corev1.EnvVar`. -/
structure EnvVar where
  name : String
  value : String
deriving DecidableEq

/-- `corev1.VolumeMount`. -/
structure VolumeMount where
  name : String
  readOnly : Bool
  mountPath : String
deriving DecidableEq

/-- `corev1.HostPathVolumeSource` (path plus host-path type). -/
structure HostPathSource where
  path : String
  hpType : String
deriving DecidableEq

/-- `corev1.Volume`. -/
structure Volume where
  name : String
  hostPath : Option HostPathSource
deriving DecidableEq

/-- `corev1.Container`. -/
structure Container where
  name : String
  image : String
  command : List String
  workingDir : String
  env : List EnvVar
  volumeMounts : List VolumeMount
  imagePullPolicy : String
deriving DecidableEq

/-- `corev1.PodSpec`.  `restartPolicy` is the string-typed corev1 value
("", "Always", "OnFailure", "Never"). -/
structure PodSpec where
  initContainers : List Container
  containers : List Container
  volumes : List Volume
  restartPolicy : String
deriving DecidableEq

/-- A `corev1.Pod` as the executor builds it.  In the source the werft job
metadata is stored in the same annotation map as the other annotations,
JSON-encoded under `werft.sh/metadata` by `jsonpb`; because that codec is an
injective external library with an inverse, the embedding keeps that one
entry typed in its own field `mdAnn` and the remaining (string-valued)
annotations in `annots`. -/
structure Pod where
  name : String
  labels : List (String × String)
  annots : List (String × String)
  mdAnn : JobMetadata
  spec : PodSpec
deriving DecidableEq

/-! ### Executor.Start (executor.go:132-228) -/

/-- The four `StartOpt` constructors of the source
(`WithBackoff`, `WithAnnotation`, `WithAnnotations`, `WithName`). -/
inductive StartOpt
  | withBackoff (limit : Int)
  | withAnnotKV (key value : String)
  | withAnnots (annots : List (String × String))
  | withName (name : String)
deriving DecidableEq

/-- `executor.startOptions`.  `backoffs` is the `Modifier` list: the only
modifier the source ever registers is the one `WithBackoff` appends, which
sets the failure-limit annotation on the pod. -/
structure StartOptions where
  jobName : String
  backoffs : List Int
  annots : List (String × String)
deriving DecidableEq

/-- Application of one `StartOpt` to the accumulated options, exactly as the
closures in executor.go:142-172 behave. -/
def applyStartOpt (o : StartOptions) : StartOpt → StartOptions
  | .withBackoff l => { o with backoffs := o.backoffs ++ [l] }
  | .withAnnotKV k v => { o with annots := setAssoc o.annots k v }
  | .withAnnots as => { o with annots := as }
  | .withName n => { o with jobName := n }

/-- The modifier registered by `WithBackoff` (executor.go:142-148): sets the
failure-limit annotation on the pod description. -/
def applyBackoff (p : Pod) (limit : Int) : Pod :=
  { p with annots := setAssoc p.annots AnnotationFailureLimit (toString limit) }

/-- `Executor.Start` (executor.go:175-228).  External inputs: `genName` is the
random moniker used when no name option is given, `now` the wall-clock
timestamp `ptypes.TimestampNow()` returns, and `accept` the orchestrator's
verdict on the submitted object (`Pods.Create`); on acceptance the created
object is returned (the source then answers `getStatus` of it). -/
def executorStart (genName : String) (now : Timestamp) (accept : Except String Unit)
    (podspec : PodSpec) (md : JobMetadata) (options : List StartOpt) : Except String Pod :=
  let opts0 : StartOptions := { jobName := "werft-" ++ genName, backoffs := [], annots := [] }
  let opts := options.foldl applyStartOpt opts0
  let anns := opts.annots.map (fun kv => (userDataAnnPre ++ "/" ++ kv.1, kv.2))
  let md' := { md with created := some now }
  let ps :=
    if podspec.restartPolicy ≠ "Never" ∧ podspec.restartPolicy ≠ "OnFailure" then
      { podspec with restartPolicy := "OnFailure" }
    else podspec
  let poddesc0 : Pod :=
    { name := opts.jobName
      labels := [(LabelWerftMarker, "true"), (LabelJobName, opts.jobName)]
      annots := anns
      mdAnn := md'
      spec := ps }
  let poddesc := opts.backoffs.foldl applyBackoff poddesc0
  match accept with
  | .error e => .error e
  | .ok _ => .ok poddesc

/-- The label selector `werft.sh/job=true` used by both `monitorJobs`
(executor.go:232-234) and `doHousekeeping` (executor.go:337-339): only
objects carrying the marker label are delivered. -/
def watchSelector (pods : List Pod) : List Pod :=
  pods.filter (fun p => List.lookup LabelWerftMarker p.labels == some "true")

/-! ### Executor.Stop (executor.go:380-404) -/

/-- The pods matching the job-name label selector in `Stop`. -/
def stopMatching (pods : List Pod) (name : String) : List Pod :=
  pods.filter (fun p => List.lookup LabelJobName p.labels == some name)

/-- `Executor.Stop` (executor.go:380-404).  `pods` is the cluster state the
list call observes.  On success, returns the pod name annotated together with
the `werft.sh/failed` annotation written by `addAnnotation`; note the source
takes no reason argument and always writes "job was stopped manually". -/
def executorStop (pods : List Pod) (name : String) : Except String (String × String × String) :=
  match stopMatching pods name with
  | [] => .error ("unknown job: " ++ name)
  | [p] => .ok (p.name, AnnotationFailed, "job was stopped manually")
  | _ :: _ :: _ => .error ("job " ++ name ++ " has no unique execution")

/-! ### Executor housekeeping (executor.go:333-377) -/

/-- One iteration of the per-pod body of `doHousekeeping` for a marker-labeled
pod, given the `v1.JobStatus` that `getStatus` computed for it and the current
time `now` in nanoseconds.  Returns the `werft.sh/failed` annotation that
`addAnnotation` writes, if any; `none` models `continue` (including the
`OnError`-and-continue path when the created timestamp does not parse). -/
def housekeepPod (prep total now : Int) (st : JobStatus) : Option (String × String) :=
  match tsParse st.metadata.created with
  | .error _ => none
  | .ok created =>
    let ttl := if st.phase = JobPhase.preparing then prep else total
    if now - created < ttl then none
    else some (AnnotationFailed, "job timed out during " ++ phaseTimeoutName st.phase)

/-! ### RunJob spec processing (service source, RunJob lines 282-420) -/

/-- The redaction of a single environment variable in the podspec dump
(service source lines 387-398): values of variables whose lowercased name
contains "secret" become "[redacted]". -/
def redactEnv (e : EnvVar) : EnvVar :=
  if strContains (lowerStr e.name) "secret" then { e with value := "[redacted]" } else e

/-- The dump redaction loop of `RunJob` (service source lines 386-398): the
spec is deep-copied and the loop rewrites every secret-named environment
variable of every *init* container in place (the regular containers are not
visited by the loop).  The net effect of the Go slice-aliasing writes is
this map. -/
def redactPodSpec (ps : PodSpec) : PodSpec :=
  { ps with initContainers := ps.initContainers.map (fun c => { c with env := c.env.map redactEnv }) }

/-- The workspace volume mount added to every container (RunJob lines 370-382). -/
def wsMount : VolumeMount := { name := "werft-workspace", readOnly := false, mountPath := "/workspace" }

/-- The spec augmentation of `RunJob` (lines 351-382): workspace host-path
volume, checkout init container from the content provider, and workspace
mounts on every container. -/
def augmentSpec (wsPre name : String) (ps : PodSpec) (initc : Container) : PodSpec :=
  let nodePath := wsPre ++ "/" ++ name
  let wsVol : Volume := { name := "werft-workspace", hostPath := some { path := nodePath, hpType := "DirectoryOrCreate" } }
  let cpinit : Container :=
    { initc with
      name := "werft-checkout"
      imagePullPolicy := "IfNotPresent"
      volumeMounts := initc.volumeMounts ++ [wsMount] }
  { ps with
    volumes := ps.volumes ++ [wsVol]
    initContainers := ps.initContainers ++ [cpinit]
    containers := ps.containers.map (fun c => { c with volumeMounts := c.volumeMounts ++ [wsMount] }) }

/-! ### Service: log entries and the RunJob pipeline (service source lines 282-420) -/

/-- One write to a job's log stream.  Plain text writes are `line`;
the external YAML/JSON serializers are injective, so the dump writes carry
the dumped object itself: `podDump s` is the `[werft:template]`-prefixed
YAML of `Pod{Spec: s}`, `k8sObjDump`/`statusDump` are the
`[werft:kubernetes]`/`[werft:status]` dumps from `OnUpdate`. -/
inductive LogEntry
  | line (s : String)
  | podDump (spec : PodSpec)
  | k8sObjDump (pod : Pod)
  | statusDump (status : JobStatus)
deriving DecidableEq

instance {ε α : Type} [DecidableEq ε] [DecidableEq α] : DecidableEq (Except ε α) := fun a b =>
  match a, b with
  | .ok x, .ok y => if h : x = y then isTrue (by rw [h]) else isFalse (fun c => by cases c; exact h rfl)
  | .error x, .error y => if h : x = y then isTrue (by rw [h]) else isFalse (fun c => by cases c; exact h rfl)
  | .ok _, .error _ => isFalse (fun c => by cases c)
  | .error _, .ok _ => isFalse (fun c => by cases c)

/-- `repoconfig.JobSpec`: the decoded job YAML; `pod` is the embedded pod spec
(nil when the document carries none). -/
structure JobSpec where
  pod : Option PodSpec
deriving DecidableEq

/-- Outcomes of the external collaborators `RunJob` consults, in pipeline
order: the log store open, the template parse (`text/template.Parse`), the
template execution, the YAML decode, `cp.InitContainer()`, `Executor.Start`,
and `cp.Serve`. -/
structure RunJobEnv where
  logsOpen : Bool
  logsOpenErr : String
  tplParse : Except String Unit
  tplExec : Except String String
  decode : Except String JobSpec
  initCont : Except String Container
  startRes : Except String JobStatus
  serve : Except String Unit
deriving DecidableEq

/-- The observable footprint of the body of `RunJob` before the deferred
failure handler runs: log writes, the statuses passed to `Jobs.Store`, the
named return values `status` and the (possibly reassigned) `name`, and the
returned error. -/
structure CoreOut where
  lines : List LogEntry
  statusSoFar : Option JobStatus
  curName : String
  stored : List JobStatus
  ret : Except String JobStatus
deriving DecidableEq

/-- The straight-line body of `Service.RunJob` (service source lines 310-419),
with each external call's outcome drawn from `env`.  `Jobs.StoreJobSpec`
failure only logs a warning, so it does not appear.  Error message strings
follow the `xerrors.Errorf` format strings of the source. -/
def runJobCore (env : RunJobEnv) (name : String) (wsPre : String) : CoreOut :=
  if env.logsOpen then
    let l0 := [LogEntry.line "[preparing|PHASE] job preparation"]
    match env.tplParse with
    | .error e =>
      { lines := l0, statusSoFar := none, curName := name, stored := [],
        ret := .error ("cannot handle job for " ++ name ++ ": " ++ e) }
    | .ok _ =>
      match env.tplExec with
      | .error e =>
        { lines := l0, statusSoFar := none, curName := name, stored := [],
          ret := .error ("cannot handle job for " ++ name ++ ": " ++ e) }
      | .ok _rendered =>
        match env.decode with
        | .error e =>
          { lines := l0, statusSoFar := none, curName := name, stored := [],
            ret := .error ("cannot handle job for " ++ name ++ ": " ++ e) }
        | .ok jobspec =>
          match jobspec.pod with
          | none =>
            { lines := l0, statusSoFar := none, curName := name, stored := [],
              ret := .error ("cannot handle job for " ++ name ++ ": no podspec present") }
          | some podspec =>
            match env.initCont with
            | .error e =>
              { lines := l0, statusSoFar := none, curName := name, stored := [],
                ret := .error ("cannot produce init container: " ++ e) }
            | .ok initc =>
              let ps := augmentSpec wsPre name podspec initc
              let l1 := l0 ++ [LogEntry.podDump (redactPodSpec ps)]
              match env.startRes with
              | .error e =>
                { lines := l1, statusSoFar := none, curName := name, stored := [],
                  ret := .error ("cannot handle job for " ++ name ++ ": " ++ e) }
              | .ok status =>
                match env.serve with
                | .error e =>
                  { lines := l1, statusSoFar := some status, curName := status.name, stored := [],
                    ret := .error e }
                | .ok _ =>
                  { lines := l1, statusSoFar := some status, curName := status.name,
                    stored := [status], ret := .ok status }
  else
    { lines := [], statusSoFar := none, curName := name, stored := [],
      ret := .error ("cannot start logging for " ++ name ++ ": " ++ env.logsOpenErr) }

/-- The synthetic terminal status built by `RunJob`'s deferred failure handler
(service source lines 284-308). -/
def failureStatus (base : Option JobStatus) (name : String) (md : JobMetadata)
    (now : Timestamp) (msg : String) : JobStatus :=
  let s := match base with
    | some s => s
    | none => { name := "", metadata := md, phase := .unknown, conditions := none, details := "", results := [] }
  { s with
    name := name
    phase := .done
    conditions := some { success := false, failureCount := 1, canReplay := false }
    metadata := if md.created = none then { md with created := some now } else md
    details := msg }

/-- The full observable behaviour of one `RunJob` call. -/
structure RunJobOut where
  logLines : List LogEntry
  stored : List JobStatus
  emitted : List JobStatus
  ret : Except String JobStatus
deriving DecidableEq

/-- `Service.RunJob` (service source lines 282-420): the body followed by the
deferred failure handler, which, on a non-nil error, appends the failure
marker to the log (only when the log store was opened, i.e. `logs != nil`),
stores the synthetic DONE status and emits it on the event bus. -/
def runJob (env : RunJobEnv) (name : String) (md : JobMetadata) (wsPre : String)
    (now : Timestamp) : RunJobOut :=
  let core := runJobCore env name wsPre
  match core.ret with
  | .ok s => { logLines := core.lines, stored := core.stored, emitted := [], ret := .ok s }
  | .error msg =>
    let s := failureStatus core.statusSoFar core.curName md now msg
    { logLines := core.lines ++ (if env.logsOpen then [LogEntry.line ("\n[werft] FAILURE " ++ msg)] else [])
      stored := core.stored ++ [s]
      emitted := [s]
      ret := .error msg }

/-! ### Service.Start: the OnUpdate callback (service source lines 83-152) -/

/-- The observable actions of one `OnUpdate` invocation: log writes, statuses
stored in the JobStore, statuses forwarded to the status reporter
(`updateGitHubStatus`), statuses emitted on the event bus, and whether the
cleanup path ran. -/
structure OnUpdateOut where
  skipped : Bool
  logWrites : List LogEntry
  stored : List JobStatus
  reported : List JobStatus
  emitted : List JobStatus
  cleanupStarted : Bool
deriving DecidableEq

/-- The `OnUpdate` callback installed by `Service.Start` (service source lines
88-151).  `logsWriteOk` is the outcome of `Logs.Write`, `hasListener` whether
`logListener` still holds an entry for the job (the cleanup branch only acts
in that case).  The `ensureLogging` state manipulation has no bearing on the
store/report/emit actions and is not tracked here. -/
def onUpdateModel (logsWriteOk : Bool) (hasListener : Bool) (pod : Pod) (s : JobStatus) : OnUpdateOut :=
  if s.metadata.annotations.any (fun a => a.key == annotationCleanupJob) then
    { skipped := true, logWrites := [], stored := [], reported := [], emitted := [], cleanupStarted := false }
  else
    let lw : List LogEntry := if logsWriteOk then [LogEntry.k8sObjDump pod, LogEntry.statusDump s] else []
    if s.phase = JobPhase.cleanup then
      { skipped := false, logWrites := lw, stored := [], reported := [], emitted := [],
        cleanupStarted := hasListener }
    else
      { skipped := false, logWrites := lw, stored := [s], reported := [s], emitted := [s],
        cleanupStarted := false }

/-! ### Service.listenToLogs: RESULT slice handling (service source lines 238-268) -/

/-- The struct the listener unmarshals a JSON RESULT payload into. -/
structure JsonResultBody where
  p : String
  c : List String
  d : String
deriving DecidableEq

/-- The whitespace-splitting fallback parse of a RESULT payload
(service source lines 256-264): `segs := strings.Fields(payload);
payload, desc := segs[0], strings.Join(segs[1:], " ")`.  When the payload has
no fields, `segs[0]` is an out-of-bounds index in the source (a panic);
that unreachable-for-nonempty-payload case is `none` here. -/
def resultFromFields (name payload : String) : Option JobResult :=
  match goFields payload with
  | [] => none
  | p :: rest =>
    some { type := trimSpace name, payload := p, description := joinSpace rest, channels := [] }

/-- The result registered for one RESULT slice event (service source lines
243-264): the JSON branch when `json.Unmarshal` succeeded (`decoded = some
body`), the fields fallback otherwise. -/
def listenerResult (decoded : Option JsonResultBody) (name payload : String) : Option JobResult :=
  match decoded with
  | some body =>
    some { type := trimSpace name, payload := body.p, description := body.d, channels := body.c }
  | none => resultFromFields name payload

/-! ### Authentication (pkg/werft/auth.go, pkg/store/postgres/tokens.go) -/

/-- gRPC status codes that appear in auth.go. -/
inductive GrpcCode
  | invalidArgument
  | unauthenticated
  | internal
deriving DecidableEq

/-- A gRPC error as produced by `status.Errorf`. -/
structure GrpcErr where
  code : GrpcCode
  msg : String
deriving DecidableEq

/-- `errMissingMetadata` (auth.go:16). -/
def errMissingMetadata : GrpcErr := { code := .invalidArgument, msg := "missing token" }

/-- `errInvalidToken` (auth.go:17). -/
def errInvalidToken : GrpcErr := { code := .unauthenticated, msg := "invalid token" }

/-- gRPC request metadata: a map from keys to value lists. -/
abbrev GrpcMd := List (String × List String)

/-- Go `md[k]` on gRPC metadata: the empty list when the key is absent. -/
def mdGet (m : GrpcMd) (k : String) : List String := (List.lookup k m).getD []

/-- Go `md[k] = v` on gRPC metadata. -/
def mdSet (m : GrpcMd) (k : String) (v : List String) : GrpcMd := setAssoc m k v

/-- Errors of `store.Token.Get`: `store.ErrNotFound` or a database failure. -/
inductive StoreErr
  | errNotFound
  | dbFailure (msg : String)
deriving DecidableEq

/-- `TokenStore.Get` (tokens.go:34-45) over a healthy database modelled as the
association list of its `user_tokens` rows: `sql.ErrNoRows` becomes
`store.ErrNotFound`.  Database failures (`StoreErr.dbFailure`) do not arise
in this model but remain handled by the caller. -/
def tokenStoreGet (db : List (String × String)) (token : String) : Except StoreErr String :=
  match List.lookup token db with
  | some u => .ok u
  | none => .error .errNotFound

/-- `validateTokenFromRequest` (auth.go:42-69).  `md = none` models
`metadata.FromIncomingContext` reporting no metadata; `tokens = none` models
a nil TokenStore. -/
def validateTokenFromRequest (md : Option GrpcMd) (tokens : Option (List (String × String))) :
    Except GrpcErr GrpcMd :=
  match md with
  | none => .error errMissingMetadata
  | some m =>
    match tokens with
    | none => .ok (mdSet m "user" ["anonymous"])
    | some db =>
      match mdGet m "authorization" with
      | [] => .error errMissingMetadata
      | t :: _ =>
        match tokenStoreGet db t with
        | .ok user => .ok (mdSet m "user" [user])
        | .error .errNotFound => .error errInvalidToken
        | .error (.dbFailure _) => .error { code := .internal, msg := "cannot validate auth token" }

/-- `UnaryAuthInterceptor` (auth.go:21-28): `.ok ()` means the handler runs. -/
def unaryAuthInterceptor (md : Option GrpcMd) (tokens : Option (List (String × String))) :
    Except GrpcErr Unit :=
  match validateTokenFromRequest md tokens with
  | .error e => .error e
  | .ok _ => .ok ()

/-- `StreamAuthInterceptor` (auth.go:31-40): every stream except
`/v1.WerftService/Login` is validated first; `.ok ()` means the handler runs. -/
def streamAuthInterceptor (fullMethod : String) (md : Option GrpcMd)
    (tokens : Option (List (String × String))) : Except GrpcErr Unit :=
  if fullMethod ≠ "/v1.WerftService/Login" then
    match validateTokenFromRequest md tokens with
    | .error e => .error e
    | .ok _ => .ok ()
  else .ok ()

/-! ### Shared concrete inputs for witnesses and counterexamples -/

/-- Empty job metadata. -/
def mdEmpty : JobMetadata :=
  { owner := "", repository := none, trigger := .unknown, created := none,
    finished := none, annotations := [] }

/-- An empty pod spec with a restart policy the executor leaves alone. -/
def psEmpty : PodSpec := { initContainers := [], containers := [], volumes := [], restartPolicy := "Never" }

/-- A concrete marker-labeled pod for the job "job-1". -/
def podA : Pod :=
  { name := "werft-pod-1"
    labels := [(LabelWerftMarker, "true"), (LabelJobName, "job-1")]
    annots := []
    mdAnn := mdEmpty
    spec := psEmpty }

/-! ### C10: NewExecutor timeout validation -/

/-- C10: `NewExecutor` returns an error whenever the preparation timeout is
unset, the total timeout is unset, or the total timeout is strictly smaller
than the preparation timeout; any configuration passing these checks yields
an executor whose stored config equals the input, so every constructed
executor satisfies prepTimeout ≤ totalTimeout. -/
theorem newExecutor_timeout_validation : ∀ cfg : ExecutorConfig,
    (cfg.jobPrepTimeout = none → newExecutor cfg = .error "job preperation timeout is required")
    ∧ (∀ p, cfg.jobPrepTimeout = some p → cfg.jobTotalTimeout = none →
        newExecutor cfg = .error "total job timeout is required")
    ∧ (∀ p t, cfg.jobPrepTimeout = some p → cfg.jobTotalTimeout = some t → t < p →
        newExecutor cfg = .error "total job timeout must be greater than the preparation timeout")
    ∧ (∀ p t, cfg.jobPrepTimeout = some p → cfg.jobTotalTimeout = some t → p ≤ t →
        newExecutor cfg = .ok { config := cfg })
    ∧ (∀ e, newExecutor cfg = .ok e →
        e.config = cfg ∧ ∃ p t, cfg.jobPrepTimeout = some p ∧ cfg.jobTotalTimeout = some t ∧ p ≤ t) := by
  intro cfg
  refine ⟨?_, ?_, ?_, ?_, ?_⟩
  · intro h
    simp [newExecutor, h]
  · intro p hp ht
    simp [newExecutor, hp, ht]
  · intro p t hp ht hlt
    simp only [newExecutor, hp, ht]
    rw [if_pos hlt]
  · intro p t hp ht hle
    simp only [newExecutor, hp, ht]
    rw [if_neg (by omega)]
  · intro e he
    rcases hp : cfg.jobPrepTimeout with _ | p
    · simp [newExecutor, hp] at he
    rcases ht : cfg.jobTotalTimeout with _ | t
    · simp [newExecutor, hp, ht] at he
    simp only [newExecutor, hp, ht] at he
    by_cases hlt : t < p
    · rw [if_pos hlt] at he
      simp at he
    · rw [if_neg hlt] at he
      rw [Except.ok.injEq] at he
      subst he
      exact ⟨rfl, p, t, rfl, rfl, by omega⟩

/-- A valid executor configuration (10m preparation, 60m total, nanoseconds). -/
def cfgA : ExecutorConfig :=
  { ns := "werft", eventTraceLog := "", jobPrepTimeout := some 600000000000,
    jobTotalTimeout := some 3600000000000 }

/-- Witness for C10 at a concrete configuration. -/
theorem newExecutor_timeout_validation_witness :
    newExecutor cfgA = .ok { config := cfgA } :=
  (newExecutor_timeout_validation cfgA).2.2.2.1 600000000000 3600000000000 rfl rfl (by norm_num)

/-! ### C3: Executor.Stop -/

/-- C3 (amended): `Stop` fails with the unknown-job error when no workload
carries the job-name label, with the no-unique-execution error when more than
one does, and otherwise annotates the unique match with
`werft.sh/failed = "job was stopped manually"` — the source `Stop` takes no
reason argument and always writes this fixed string. -/
theorem executorStop_spec : ∀ (pods : List Pod) (name : String),
    (stopMatching pods name = [] → executorStop pods name = .error ("unknown job: " ++ name))
    ∧ (∀ p, stopMatching pods name = [p] →
        executorStop pods name = .ok (p.name, AnnotationFailed, "job was stopped manually"))
    ∧ (∀ p q rest, stopMatching pods name = p :: q :: rest →
        executorStop pods name = .error ("job " ++ name ++ " has no unique execution")) := by
  intro pods name
  refine ⟨?_, ?_, ?_⟩
  · intro h
    simp [executorStop, h]
  · intro p h
    simp [executorStop, h]
  · intro p q rest h
    simp [executorStop, h]

/-- Witness for C3's amended theorem: stopping an unknown job fails. -/
theorem executorStop_spec_witness :
    executorStop [] "nope" = .error ("unknown job: " ++ "nope") :=
  (executorStop_spec [] "nope").1 rfl

/-- C3 counterexample: the claim says the unique matching workload is
annotated with `failed = <reason>` for the caller-supplied reason; the code
annotates the fixed string "job was stopped manually" no matter what reason
the caller (e.g. `listenToLogs` with its log-infrastructure message) had. -/
theorem executorStop_ignores_reason_cx :
    executorStop [podA] "job-1" = .ok ("werft-pod-1", AnnotationFailed, "job was stopped manually")
    ∧ "job was stopped manually" ≠ "log infrastructure failure: broken pipe" := by
  constructor
  · decide
  · decide

/-! ### C5: cleanup-job updates are invisible -/

/-- C5: a status update whose metadata annotations contain the key
"cleanupJob" is never stored, never forwarded to the status reporter and
never emitted on the event bus: `OnUpdate` returns without any action. -/
theorem onUpdate_skips_cleanup_jobs : ∀ (w l : Bool) (pod : Pod) (s : JobStatus),
    s.metadata.annotations.any (fun a => a.key == annotationCleanupJob) = true →
    onUpdateModel w l pod s =
      { skipped := true, logWrites := [], stored := [], reported := [], emitted := [],
        cleanupStarted := false } := by
  intro w l pod s h
  simp [onUpdateModel, h]

/-- A status carrying the cleanup-job annotation, as built by
`cleanupJobWorkspace`. -/
def statusCleanup : JobStatus :=
  { name := "cleanup-job-1"
    metadata := { mdEmpty with annotations := [{ key := "cleanupJob", value := "true" }] }
    phase := .running
    conditions := none
    details := ""
    results := [] }

/-- Witness for C5 at a concrete cleanup-job status. -/
theorem onUpdate_skips_cleanup_jobs_witness :
    onUpdateModel true true podA statusCleanup =
      { skipped := true, logWrites := [], stored := [], reported := [], emitted := [],
        cleanupStarted := false } :=
  onUpdate_skips_cleanup_jobs true true podA statusCleanup (by decide)

/-! ### C4: authentication interceptors -/

/-- C4 (amended): `Login` streams bypass validation entirely; for every other
method, when a TokenStore is configured, a request without usable metadata or
without an authorization entry is rejected with `InvalidArgument` "missing
token" (not `Unauthenticated`), a token the store does not know is rejected
with `Unauthenticated` "invalid token", and a token resolving to a user
proceeds with the user recorded in the metadata; with a nil TokenStore any
request with metadata proceeds as "anonymous". -/
theorem authInterceptors_spec :
    (∀ md tokens, streamAuthInterceptor "/v1.WerftService/Login" md tokens = .ok ())
    ∧ (∀ fm tokens, fm ≠ "/v1.WerftService/Login" →
        streamAuthInterceptor fm none tokens = .error errMissingMetadata)
    ∧ (∀ fm m db, fm ≠ "/v1.WerftService/Login" → mdGet m "authorization" = [] →
        streamAuthInterceptor fm (some m) (some db) = .error errMissingMetadata)
    ∧ (∀ fm m db t rest, fm ≠ "/v1.WerftService/Login" →
        mdGet m "authorization" = t :: rest → List.lookup t db = none →
        streamAuthInterceptor fm (some m) (some db) = .error errInvalidToken)
    ∧ (∀ fm m db t rest u, fm ≠ "/v1.WerftService/Login" →
        mdGet m "authorization" = t :: rest → List.lookup t db = some u →
        streamAuthInterceptor fm (some m) (some db) = .ok ())
    ∧ (∀ tokens, unaryAuthInterceptor none tokens = .error errMissingMetadata)
    ∧ (∀ m db, mdGet m "authorization" = [] →
        unaryAuthInterceptor (some m) (some db) = .error errMissingMetadata)
    ∧ (∀ m db t rest, mdGet m "authorization" = t :: rest → List.lookup t db = none →
        unaryAuthInterceptor (some m) (some db) = .error errInvalidToken)
    ∧ (∀ m db t rest u, mdGet m "authorization" = t :: rest → List.lookup t db = some u →
        unaryAuthInterceptor (some m) (some db) =
          .ok () ∧ validateTokenFromRequest (some m) (some db) = .ok (mdSet m "user" [u]))
    ∧ (∀ m, validateTokenFromRequest (some m) none = .ok (mdSet m "user" ["anonymous"]))
    ∧ errMissingMetadata.code = GrpcCode.invalidArgument
    ∧ errInvalidToken.code = GrpcCode.unauthenticated := by
  refine ⟨?_, ?_, ?_, ?_, ?_, ?_, ?_, ?_, ?_, ?_, rfl, rfl⟩
  · intro md tokens
    simp [streamAuthInterceptor]
  · intro fm tokens h
    simp [streamAuthInterceptor, h, validateTokenFromRequest]
  · intro fm m db h ha
    simp [streamAuthInterceptor, h, validateTokenFromRequest, ha]
  · intro fm m db t rest h ha hl
    simp [streamAuthInterceptor, h, validateTokenFromRequest, ha, tokenStoreGet, hl]
  · intro fm m db t rest u h ha hl
    simp [streamAuthInterceptor, h, validateTokenFromRequest, ha, tokenStoreGet, hl]
  · intro tokens
    simp [unaryAuthInterceptor, validateTokenFromRequest]
  · intro m db ha
    simp [unaryAuthInterceptor, validateTokenFromRequest, ha]
  · intro m db t rest ha hl
    simp [unaryAuthInterceptor, validateTokenFromRequest, ha, tokenStoreGet, hl]
  · intro m db t rest u ha hl
    constructor
    · simp [unaryAuthInterceptor, validateTokenFromRequest, ha, tokenStoreGet, hl]
    · simp [validateTokenFromRequest, ha, tokenStoreGet, hl]
  · intro m
    simp [validateTokenFromRequest]

/-- Witness for C4's amended theorem: a request with metadata, a configured
store and a known token passes the stream interceptor for a non-Login method. -/
theorem authInterceptors_spec_witness :
    streamAuthInterceptor "/v1.WerftService/ListJobs"
      (some [("authorization", ["tok1"])]) (some [("tok1", "alice")]) = .ok () :=
  authInterceptors_spec.2.2.2.2.1 "/v1.WerftService/ListJobs"
    [("authorization", ["tok1"])] [("tok1", "alice")] "tok1" [] "alice"
    (by decide) (by decide) (by decide)

/-- C4 counterexample: a non-Login request whose metadata carries no
authorization token is rejected with `InvalidArgument` "missing token", not
with `Unauthenticated` as the claim states. -/
theorem authMissingToken_not_unauthenticated_cx :
    streamAuthInterceptor "/v1.WerftService/ListJobs" (some []) (some [("tok1", "alice")]) =
      .error { code := GrpcCode.invalidArgument, msg := "missing token" }
    ∧ GrpcCode.invalidArgument ≠ GrpcCode.unauthenticated := by
  constructor
  · decide
  · decide

/-! ### C2: housekeeping timeouts -/

/-- Evaluation of the lowercased, trimmed phase names used in the timeout
message. -/
theorem phaseTimeoutName_eval :
    phaseTimeoutName JobPhase.preparing = "preparing"
    ∧ phaseTimeoutName JobPhase.starting = "starting"
    ∧ phaseTimeoutName JobPhase.running = "running" := by
  refine ⟨?_, ?_, ?_⟩ <;> decide

/-- Unfolding of the housekeeping body once the created timestamp parses. -/
theorem housekeepPod_eq (prep total now created : Int) (st : JobStatus)
    (hc : tsParse st.metadata.created = .ok created) :
    housekeepPod prep total now st =
      (if now - created < (if st.phase = JobPhase.preparing then prep else total) then none
       else some (AnnotationFailed, "job timed out during " ++ phaseTimeoutName st.phase)) := by
  unfold housekeepPod
  rw [hc]

/-- C2 (amended): for a marker-labeled workload whose created timestamp
parses, housekeeping annotates `werft.sh/failed = "job timed out during
<phase>"` (note the "job " prefix the source adds beyond the claim's wording)
exactly when the age `now - created` is at least the applicable budget —
`prepTimeout` in PREPARING, `totalTimeout` in STARTING and RUNNING — and
leaves the workload unannotated while the age is strictly below the budget. -/
theorem housekeepPod_timeout_spec : ∀ (prep total now created : Int) (st : JobStatus),
    tsParse st.metadata.created = .ok created →
    (st.phase = JobPhase.preparing →
      (housekeepPod prep total now st = some (AnnotationFailed, "job timed out during preparing")
        ↔ prep ≤ now - created))
    ∧ (st.phase = JobPhase.starting →
      (housekeepPod prep total now st = some (AnnotationFailed, "job timed out during starting")
        ↔ total ≤ now - created))
    ∧ (st.phase = JobPhase.running →
      (housekeepPod prep total now st = some (AnnotationFailed, "job timed out during running")
        ↔ total ≤ now - created)) := by
  intro prep total now created st hc
  have hs1 : ("job timed out during " ++ phaseTimeoutName JobPhase.preparing) = "job timed out during preparing" := by
    decide
  have hs2 : ("job timed out during " ++ phaseTimeoutName JobPhase.starting) = "job timed out during starting" := by
    decide
  have hs3 : ("job timed out during " ++ phaseTimeoutName JobPhase.running) = "job timed out during running" := by
    decide
  refine ⟨?_, ?_, ?_⟩ <;> intro hp
  · rw [housekeepPod_eq prep total now created st hc, hp, if_pos rfl, hs1]
    split_ifs with h
    · simp only [reduceCtorEq, false_iff]
      omega
    · simp only [true_iff]
      omega
  · rw [housekeepPod_eq prep total now created st hc, hp,
      if_neg (show ¬(JobPhase.starting = JobPhase.preparing) by decide), hs2]
    split_ifs with h
    · simp only [reduceCtorEq, false_iff]
      omega
    · simp only [true_iff]
      omega
  · rw [housekeepPod_eq prep total now created st hc, hp,
      if_neg (show ¬(JobPhase.running = JobPhase.preparing) by decide), hs3]
    split_ifs with h
    · simp only [reduceCtorEq, false_iff]
      omega
    · simp only [true_iff]
      omega

/-- A status in phase PREPARING created at epoch nanosecond 0. -/
def statusPrep : JobStatus :=
  { name := "job-1"
    metadata := { mdEmpty with created := some { seconds := 0, nanos := 0 } }
    phase := .preparing
    conditions := none
    details := ""
    results := [] }

/-- Witness for C2's amended theorem: with an 11ns age against a 10ns
preparation budget, housekeeping annotates the failure message. -/
theorem housekeepPod_timeout_spec_witness :
    housekeepPod 10 60 11 statusPrep = some (AnnotationFailed, "job timed out during preparing") :=
  (((housekeepPod_timeout_spec 10 60 11 0 statusPrep (by decide)).1) rfl).mpr (by norm_num)

/-- C2 counterexample: the annotation the code writes is
"job timed out during preparing", not the claim's "timed out during
preparing". -/
theorem housekeepPod_msg_cx :
    housekeepPod 10 60 11 statusPrep = some (AnnotationFailed, "job timed out during preparing")
    ∧ "job timed out during preparing" ≠ "timed out during preparing" := by
  constructor
  · decide
  · decide

/-! ### C6: secret redaction in the dumped pod spec -/

/-- Redaction never changes a variable's name. -/
theorem redactEnv_name (e : EnvVar) : (redactEnv e).name = e.name := by
  unfold redactEnv
  split_ifs <;> rfl

/-- C6 (amended): in the spec dumped by `RunJob`, every environment variable
of every *init* container whose lowercased name contains "secret" has value
"[redacted]", while the regular containers are dumped verbatim — the
redaction loop visits only `InitContainers`. -/
theorem redactPodSpec_spec : ∀ ps : PodSpec,
    (redactPodSpec ps).containers = ps.containers
    ∧ (∀ c ∈ (redactPodSpec ps).initContainers, ∀ e ∈ c.env,
        strContains (lowerStr e.name) "secret" = true → e.value = "[redacted]") := by
  intro ps
  constructor
  · rfl
  · intro c hc e he hsec
    simp only [redactPodSpec, List.mem_map] at hc
    obtain ⟨c0, _, rfl⟩ := hc
    simp only [List.mem_map] at he
    obtain ⟨e0, _, rfl⟩ := he
    rw [redactEnv_name] at hsec
    unfold redactEnv
    rw [if_pos hsec]

/-- A container whose sole environment variable is named MY_SECRET. -/
def contSecret (v : String) : Container :=
  { name := "build", image := "alpine:latest", command := [], workingDir := "",
    env := [{ name := "MY_SECRET", value := v }], volumeMounts := [], imagePullPolicy := "" }

/-- A spec whose *regular* container holds a secret-named variable. -/
def psSecretA : PodSpec :=
  { initContainers := [], containers := [contSecret "hunter2"], volumes := [], restartPolicy := "Never" }

/-- The same spec with a different secret value. -/
def psSecretB : PodSpec :=
  { initContainers := [], containers := [contSecret "other"], volumes := [], restartPolicy := "Never" }

/-- A spec whose *init* container holds the secret-named variable. -/
def psInitSecret : PodSpec :=
  { initContainers := [contSecret "hunter2"], containers := [], volumes := [], restartPolicy := "Never" }

/-- The redacted form of `contSecret`. -/
def contRedacted : Container :=
  { name := "build", image := "alpine:latest", command := [], workingDir := "",
    env := [{ name := "MY_SECRET", value := "[redacted]" }], volumeMounts := [], imagePullPolicy := "" }

/-- Witness for C6's amended theorem: the secret variable of an init
container is redacted in the dump. -/
theorem redactPodSpec_spec_witness :
    ({ name := "MY_SECRET", value := "[redacted]" } : EnvVar).value = "[redacted]" :=
  (redactPodSpec_spec psInitSecret).2 contRedacted (by decide)
    { name := "MY_SECRET", value := "[redacted]" } (by decide) (by decide)

/-- C6 counterexample: the claim covers init and regular containers alike,
but a secret-named variable of a *regular* container survives redaction
unchanged, and two runs differing only in its value produce different dumped
specs. -/
theorem redact_misses_regular_containers_cx :
    strContains (lowerStr "MY_SECRET") "secret" = true
    ∧ redactPodSpec psSecretA = psSecretA
    ∧ redactPodSpec psSecretB = psSecretB
    ∧ redactPodSpec psSecretA ≠ redactPodSpec psSecretB
    ∧ "hunter2" ≠ "[redacted]" := by
  refine ⟨by decide, by decide, by decide, by decide, by decide⟩

/-! ### C7: Start failure modes -/

/-- Whether an `Except` is a success. -/
def isOkE {α : Type} (r : Except String α) : Bool :=
  match r with
  | .ok _ => true
  | .error _ => false

/-- C7 (amended): `Executor.Start` performs no container validation of its
own — the missing-podspec check lives in `Service.RunJob`, which fails with
"no podspec present" before `Start` is ever called; when the orchestrator
rejects the submitted object, `Start` returns the rejection error and no
status. -/
theorem startFailure_spec :
    (∀ (g : String) (now : Timestamp) (e : String) (ps : PodSpec) (md : JobMetadata)
        (opts : List StartOpt), executorStart g now (.error e) ps md opts = .error e)
    ∧ (∀ (env : RunJobEnv) (name wsPre : String) (md : JobMetadata) (now : Timestamp)
        (js : JobSpec),
        env.logsOpen = true → env.tplParse = .ok () → (∃ r, env.tplExec = .ok r) →
        env.decode = .ok js → js.pod = none →
        (runJob env name md wsPre now).ret =
          .error ("cannot handle job for " ++ name ++ ": no podspec present")) := by
  constructor
  · intro g now e ps md opts
    rfl
  · intro env name wsPre md now js h1 h2 h3x h4 h5
    obtain ⟨r, h3⟩ := h3x
    have hcore : (runJobCore env name wsPre).ret =
        .error ("cannot handle job for " ++ name ++ ": no podspec present") := by
      unfold runJobCore
      simp only [h1, h2, h3, h4, h5, if_true]
    simp only [runJob, hcore]

/-- A run environment whose job YAML decodes without a pod spec. -/
def envNoPod : RunJobEnv :=
  { logsOpen := true, logsOpenErr := "", tplParse := .ok (), tplExec := .ok "rendered",
    decode := .ok { pod := none }, initCont := .error "unused", startRes := .error "unused",
    serve := .ok () }

/-- Witness for C7's amended theorem at a concrete environment. -/
theorem startFailure_spec_witness :
    (runJob envNoPod "job-1" mdEmpty "/builds" { seconds := 0, nanos := 0 }).ret =
      .error ("cannot handle job for " ++ "job-1" ++ ": no podspec present") :=
  startFailure_spec.2 envNoPod "job-1" "/builds" mdEmpty { seconds := 0, nanos := 0 }
    { pod := none } rfl rfl ⟨"rendered", rfl⟩ rfl rfl

/-- C7 counterexample: a spec with no containers is submitted and accepted —
`Executor.Start` raises no InvalidSpec error. -/
theorem executorStart_no_validation_cx :
    psEmpty.containers = []
    ∧ isOkE (executorStart "gen" { seconds := 0, nanos := 0 } (.ok ()) psEmpty mdEmpty []) = true := by
  constructor
  · rfl
  · rfl

/-! ### C8: created pods carry the marker label and a parseable created stamp -/

/-- The `WithBackoff` modifiers touch only the annotation map: pod name,
labels and metadata annotation survive the fold. -/
theorem foldl_applyBackoff_fields : ∀ (bs : List Int) (p : Pod),
    (bs.foldl applyBackoff p).labels = p.labels
    ∧ (bs.foldl applyBackoff p).name = p.name
    ∧ (bs.foldl applyBackoff p).mdAnn = p.mdAnn := by
  intro bs
  induction bs with
  | nil => intro p; exact ⟨rfl, rfl, rfl⟩
  | cons b bs ih =>
    intro p
    simp only [List.foldl_cons]
    exact ⟨(ih (applyBackoff p b)).1, (ih (applyBackoff p b)).2.1, (ih (applyBackoff p b)).2.2⟩

/-- The label and creation-stamp content of every pod `Start` submits. -/
theorem executorStart_ok (g : String) (now : Timestamp) (ps : PodSpec) (md : JobMetadata)
    (opts : List StartOpt) (pod : Pod) :
    executorStart g now (.ok ()) ps md opts = .ok pod →
    List.lookup LabelWerftMarker pod.labels = some "true"
    ∧ List.lookup LabelJobName pod.labels = some pod.name
    ∧ pod.mdAnn.created = some now := by
  intro h
  unfold executorStart at h
  simp only [Except.ok.injEq] at h
  subst h
  refine ⟨?_, ?_, ?_⟩
  · rw [(foldl_applyBackoff_fields _ _).1]
    rfl
  · rw [(foldl_applyBackoff_fields _ _).1, (foldl_applyBackoff_fields _ _).2.1]
    rfl
  · rw [(foldl_applyBackoff_fields _ _).2.2]

/-- C8: every workload `Executor.Start` creates carries the marker label
`werft.sh/job = "true"` and the per-job name label, and its metadata
annotation's `created` stamp is the creation-time clock value, which parses
whenever the wall clock is in `ptypes` range (as `TimestampNow` guarantees);
the watcher's label selector delivers exactly the marker-labeled objects, so
anything lacking the marker is ignored. -/
theorem executorStart_pod_invariants : ∀ (g : String) (now : Timestamp) (ps : PodSpec)
    (md : JobMetadata) (opts : List StartOpt) (pod : Pod),
    executorStart g now (.ok ()) ps md opts = .ok pod →
    List.lookup LabelWerftMarker pod.labels = some "true"
    ∧ List.lookup LabelJobName pod.labels = some pod.name
    ∧ pod.mdAnn.created = some now
    ∧ (tsValid now = true →
        tsParse pod.mdAnn.created = .ok (now.seconds * 1000000000 + now.nanos))
    ∧ (∀ pods : List Pod, pod ∈ pods → pod ∈ watchSelector pods)
    ∧ (∀ (q : Pod) (pods : List Pod), List.lookup LabelWerftMarker q.labels ≠ some "true" →
        q ∉ watchSelector pods) := by
  intro g now ps md opts pod h
  obtain ⟨h1, h2, h3⟩ := executorStart_ok g now ps md opts pod h
  refine ⟨h1, h2, h3, ?_, ?_, ?_⟩
  · intro hv
    rw [h3]
    simp [tsParse, hv]
  · intro pods hin
    rw [watchSelector, List.mem_filter]
    exact ⟨hin, by simp [h1]⟩
  · intro q pods hq hmem
    rw [watchSelector, List.mem_filter] at hmem
    exact hq (by simpa using hmem.2)

/-- The pod `Start` builds for generated name "gen" at second 100. -/
def podGen : Pod :=
  { name := "werft-gen"
    labels := [(LabelWerftMarker, "true"), (LabelJobName, "werft-gen")]
    annots := []
    mdAnn := { mdEmpty with created := some { seconds := 100, nanos := 0 } }
    spec := psEmpty }

/-- Witness for C8 at a concrete start call. -/
theorem executorStart_pod_invariants_witness :
    List.lookup LabelWerftMarker podGen.labels = some "true"
    ∧ tsParse podGen.mdAnn.created = .ok (100 * 1000000000 + 0) := by
  have h : executorStart "gen" { seconds := 100, nanos := 0 } (.ok ()) psEmpty mdEmpty [] =
      .ok podGen := by decide
  exact ⟨(executorStart_pod_invariants "gen" { seconds := 100, nanos := 0 } psEmpty mdEmpty [] podGen h).1,
    (executorStart_pod_invariants "gen" { seconds := 100, nanos := 0 } psEmpty mdEmpty [] podGen h).2.2.2.1
      (by decide)⟩

/-! ### C9: RESULT fallback parse -/

/-- A nonempty accumulator always yields a field. -/
theorem fieldsAux_ne_nil : ∀ (cs acc : List Char), acc ≠ [] → fieldsAux cs acc ≠ [] := by
  intro cs
  induction cs with
  | nil =>
    intro acc h
    simp [fieldsAux, h]
  | cons c cs ih =>
    intro acc h
    by_cases hs : isSpaceCh c = true
    · simp only [fieldsAux, hs, if_true]
      rw [if_neg h]
      simp
    · simp only [fieldsAux]
      rw [if_neg hs]
      exact ih (c :: acc) (by simp)

/-- `strings.Fields` yields nothing exactly on all-whitespace input. -/
theorem fieldsAux_nil_iff : ∀ cs : List Char, fieldsAux cs [] = [] ↔ ∀ c ∈ cs, isSpaceCh c = true := by
  intro cs
  induction cs with
  | nil => simp [fieldsAux]
  | cons c cs ih =>
    by_cases hs : isSpaceCh c = true
    · rw [show fieldsAux (c :: cs) [] = fieldsAux cs [] from by simp [fieldsAux, hs]]
      simp [hs, ih]
    · rw [show fieldsAux (c :: cs) [] = fieldsAux cs [c] from by simp [fieldsAux, hs]]
      refine iff_of_false (fieldsAux_ne_nil cs [c] (by simp)) ?_
      intro h
      exact hs (h c (by simp))

/-- `goFields` on a string is empty exactly when every character is whitespace. -/
theorem goFields_nil_iff (s : String) : goFields s = [] ↔ ∀ c ∈ s.data, isSpaceCh c = true := by
  unfold goFields
  rw [List.map_eq_nil_iff]
  exact fieldsAux_nil_iff s.data

/-- C9: for a RESULT slice event whose payload does not decode as JSON, the
listener registers type = trimmed event name, payload = first
whitespace-separated field and description = the remaining fields joined by
single spaces; the fallback is total exactly when the payload contains a
non-whitespace character — on an empty or all-whitespace payload the
`segs[0]` access of the source is out of bounds (`none` here). -/
theorem listenerFallback_spec : ∀ name payload : String,
    listenerResult none name payload = resultFromFields name payload
    ∧ (resultFromFields name payload = none ↔ ∀ c ∈ payload.data, isSpaceCh c = true)
    ∧ ((∃ c ∈ payload.data, isSpaceCh c = false) → ∃ p rest,
        goFields payload = p :: rest
        ∧ resultFromFields name payload =
            some { type := trimSpace name, payload := p, description := joinSpace rest,
                   channels := [] }) := by
  intro name payload
  refine ⟨rfl, ⟨?_, ?_⟩, ?_⟩
  · intro h
    apply (goFields_nil_iff payload).mp
    cases hf : goFields payload with
    | nil => rfl
    | cons p rest =>
      unfold resultFromFields at h
      rw [hf] at h
      simp at h
  · intro h
    unfold resultFromFields
    rw [(goFields_nil_iff payload).mpr h]
  · rintro ⟨c, hc, hcs⟩
    cases hf : goFields payload with
    | nil =>
      have := (goFields_nil_iff payload).mp hf c hc
      rw [hcs] at this
      exact absurd this (by simp)
    | cons p rest =>
      refine ⟨p, rest, rfl, ?_⟩
      unfold resultFromFields
      rw [hf]

/-- Witness for C9 at the S1 scenario payload. -/
theorem listenerFallback_spec_witness :
    resultFromFields "build" "image myrepo/x:v1" =
      some { type := "build", payload := "image", description := "myrepo/x:v1", channels := [] } := by
  obtain ⟨p, rest, hf, hr⟩ :=
    (listenerFallback_spec "build" "image myrepo/x:v1").2.2 ⟨'i', by decide, by decide⟩
  have he : goFields "image myrepo/x:v1" = ["image", "myrepo/x:v1"] := by decide
  rw [he] at hf
  injection hf with h1 h2
  subst h1
  subst h2
  rw [hr]
  decide

/-! ### C1: RunJob failure path guarantee -/

/-- C1: whenever `RunJob` returns a non-nil error after the log store was
opened, the deferred handler writes the failure marker line
"[werft] FAILURE <msg>" (preceded by a newline) to the job's log, stores a
synthetic status with phase DONE, success=false and failureCount=1 in the
JobStore, and emits that very status on the event bus. -/
theorem runJob_failure_guarantee : ∀ (env : RunJobEnv) (name : String) (md : JobMetadata)
    (wsPre : String) (now : Timestamp) (msg : String),
    (runJob env name md wsPre now).ret = .error msg →
    env.logsOpen = true →
    ∃ s : JobStatus,
      (runJob env name md wsPre now).emitted = [s]
      ∧ s ∈ (runJob env name md wsPre now).stored
      ∧ s.phase = JobPhase.done
      ∧ s.conditions = some { success := false, failureCount := 1, canReplay := false }
      ∧ s.details = msg
      ∧ LogEntry.line ("\n[werft] FAILURE " ++ msg) ∈ (runJob env name md wsPre now).logLines := by
  intro env name md wsPre now msg hret hopen
  cases hc : (runJobCore env name wsPre).ret with
  | ok s =>
    simp [runJob, hc] at hret
  | error m =>
    have hrun : runJob env name md wsPre now =
        { logLines := (runJobCore env name wsPre).lines ++ [LogEntry.line ("\n[werft] FAILURE " ++ m)]
          stored := (runJobCore env name wsPre).stored ++
            [failureStatus (runJobCore env name wsPre).statusSoFar
              (runJobCore env name wsPre).curName md now m]
          emitted := [failureStatus (runJobCore env name wsPre).statusSoFar
            (runJobCore env name wsPre).curName md now m]
          ret := .error m } := by
      simp [runJob, hc, hopen]
    have hm : m = msg := by
      rw [hrun] at hret
      simpa using hret
    subst hm
    refine ⟨failureStatus (runJobCore env name wsPre).statusSoFar
      (runJobCore env name wsPre).curName md now m, ?_, ?_, rfl, rfl, rfl, ?_⟩
    · rw [hrun]
    · rw [hrun]
      simp
    · rw [hrun]
      simp

/-- A run environment in which the job template fails to parse. -/
def envTplErr : RunJobEnv :=
  { logsOpen := true, logsOpenErr := "", tplParse := .error "template: parse failed",
    tplExec := .ok "", decode := .ok { pod := none }, initCont := .error "unused",
    startRes := .error "unused", serve := .ok () }

/-- Witness for C1: the failure marker for a concrete template error is in
the job's log. -/
theorem runJob_failure_guarantee_witness :
    LogEntry.line ("\n[werft] FAILURE " ++
        ("cannot handle job for " ++ "job-1" ++ ": " ++ "template: parse failed"))
      ∈ (runJob envTplErr "job-1" mdEmpty "/builds" { seconds := 0, nanos := 0 }).logLines := by
  obtain ⟨s, _, _, _, _, _, hmark⟩ :=
    runJob_failure_guarantee envTplErr "job-1" mdEmpty "/builds" { seconds := 0, nanos := 0 }
      ("cannot handle job for " ++ "job-1" ++ ": " ++ "template: parse failed") (by decide) rfl
  exact hmark
